import Mathlib

/-
Verification development for the event-study engine of the repository
(src/src/analysis/metrics.py, class EventStudy).

Modelling choices, stated once:
  * Calendar dates are integers (day numbers); `timedelta(days = k)` is `+ k`.
  * Prices and returns are exact rationals; a pandas NaN cell is `Option.none`.
  * The external price provider (yf.download plus the Adj Close / column
    flattening shaping) is a parameter of type `Provider`; a raised provider
    exception is `Except.error`, a delivered two-column frame is `Except.ok`.
    The flags `hasAsset` / `hasBench` model whether the downloaded frame
    carries a column for the requested symbol (the membership tests
    `ticker not in est_data` / `self.benchmark not in est_data`).
  * `DataFrame.pct_change(fill_method=None).dropna()` on the joint frame:
    row i gets, per present column, price[i]/price[i-1] - 1 where row i-1 is
    the previous row of the joint index, and a row survives dropna exactly
    when every present column has a defined value there.
  * `.loc[a:b]` on the date-sorted index is the closed-interval filter.
  * `sklearn.LinearRegression().fit` on one regressor centers both series and
    solves least squares; with a non-constant regressor this is the textbook
    closed form, and with a constant regressor the minimum-norm solution has
    slope 0 and intercept equal to the mean of the dependent variable.
-/

abbrev Date := Int

structure Row where
  date : Date
  asset : Option ℚ
  bench : Option ℚ
deriving DecidableEq

structure FetchResult where
  hasAsset : Bool
  hasBench : Bool
  rows : List Row
deriving DecidableEq

abbrev Provider := String → String → Date → Date → Except String FetchResult

structure RRow where
  date : Date
  ra : Option ℚ
  rb : Option ℚ
deriving DecidableEq

/-- One cell of `pct_change(fill_method=None)`: defined only when the cell and
the cell on the previous row are both defined. -/
def pctCell (prev cur : Option ℚ) : Option ℚ :=
  match prev, cur with
  | some p, some c => some (c / p - 1)
  | _, _ => none

/-- One candidate row of `data.pct_change(fill_method=None).dropna()` built from
two consecutive rows of the downloaded frame; `none` when dropna removes it. -/
def mkReturnRow (hasA hasB : Bool) (prev cur : Row) : Option RRow :=
  let ra := if hasA then pctCell prev.asset cur.asset else none
  let rb := if hasB then pctCell prev.bench cur.bench else none
  if (!hasA || ra.isSome) && (!hasB || rb.isSome) then some ⟨cur.date, ra, rb⟩
  else none

/-- `returns = data.pct_change(fill_method=None).dropna()` on the joint frame. -/
def jointReturns (fr : FetchResult) : List RRow :=
  (fr.rows.zip fr.rows.tail).filterMap
    (fun pc => mkReturnRow fr.hasAsset fr.hasBench pc.1 pc.2)

def inWindow (lo hi : Date) (r : RRow) : Bool :=
  (decide (lo ≤ r.date)) && (decide (r.date ≤ hi))

/-- `returns.loc[lo:hi]` on the date-sorted return frame. -/
def sliceRows (lo hi : Date) (rs : List RRow) : List RRow :=
  rs.filter (inWindow lo hi)

/-- `X = est_data[self.benchmark]`, `y = est_data[ticker]` as (x, y) pairs. -/
def estPointsOf (rs : List RRow) : List (ℚ × ℚ) :=
  rs.map (fun r => ((r.rb).getD 0, (r.ra).getD 0))

/-- `LinearRegression().fit(X, y)` for a single regressor, in exact arithmetic:
center x and y, solve least squares on the centered data (slope 0 when the
centered regressor is identically 0, the minimum-norm answer), then recover the
intercept from the means. Returns (intercept alpha, slope beta). -/
def olsFit (pts : List (ℚ × ℚ)) : ℚ × ℚ :=
  let n : ℚ := pts.length
  let xbar : ℚ := ((pts.map Prod.fst).sum) / n
  let ybar : ℚ := ((pts.map Prod.snd).sum) / n
  let sxx : ℚ := (pts.map (fun p => (p.1 - xbar) * (p.1 - xbar))).sum
  let sxy : ℚ := (pts.map (fun p => (p.1 - xbar) * (p.2 - ybar))).sum
  let beta : ℚ := if sxx = 0 then 0 else sxy / sxx
  (ybar - beta * xbar, beta)

/-- `car = (actual_returns - (alpha + beta * market_returns)).sum()`. -/
def carSum (alpha beta : ℚ) (rs : List RRow) : ℚ :=
  (rs.map (fun r => (r.ra).getD 0 - (alpha + beta * (r.rb).getD 0))).sum

/-- The static remap table TICKER_MAP of metrics.py. -/
def TICKER_MAP : List (String × String) :=
  [("$BTC", "BTC-USD"), ("VWUSX:US", "VWUSX"), ("XSP", "SPY")]

/-- Python `str.strip()`: whitespace removed from both ends. -/
def trimChars (l : List Char) : List Char :=
  ((l.dropWhile Char.isWhitespace).reverse.dropWhile Char.isWhitespace).reverse

/-- The character replacements `.replace('/', '-').replace('.', '-')`. -/
def sanitizeChar (c : Char) : Char :=
  if c = '/' then '-' else if c = '.' then '-' else c

/-- `ticker.strip().upper().replace('/', '-').replace('.', '-')` followed by
`TICKER_MAP.get(ticker, ticker)`. -/
def normalizeTicker (t : String) : String :=
  let u := String.mk ((trimChars t.data).map (fun c => sanitizeChar c.toUpper))
  match TICKER_MAP.find? (fun p => p.1 == u) with
  | some p => p.2
  | none => u

/-- The raw-ticker guard `ticker in ['--', 'NaN', '']` of calculate_car. -/
def invalidRawTicker (t : String) : Bool :=
  t == "--" || t == "NaN" || t == ""

/-- Body of the `try:` block of calculate_car: download, returns, 50-row floor,
estimation slice and column guard, regression, event slice, CAR sum. -/
def calcCarBody (prov : Provider) (benchmark ticker : String)
    (d wdays : Date) : Except String (Option ℚ) :=
  match prov ticker benchmark (d - 200) (d + wdays + 5) with
  | Except.error e => Except.error e
  | Except.ok data =>
    let returns := jointReturns data
    if returns.length < 50 then Except.ok none
    else
      let est_data := sliceRows (d - 200) (d - 10) returns
      if est_data.isEmpty || !data.hasBench || !data.hasAsset then Except.ok none
      else
        let ab := olsFit (estPointsOf est_data)
        let evt_data := sliceRows d (d + wdays) returns
        if evt_data.isEmpty then Except.ok none
        else Except.ok (some (carSum ab.1 ab.2 evt_data))

/-- EventStudy.calculate_car: a missing trade date (`pd.isna`), a non-string
ticker (`Option.none`) or a raw placeholder ticker short-circuit to `none`;
otherwise the normalized ticker is evaluated by the try-block body and any
exception is caught and converted to `none`. -/
def calculate_car (prov : Provider) (benchmark : String) (ticker : Option String)
    (trade_date : Option Date) (wdays : Date) : Option ℚ :=
  match trade_date with
  | none => none
  | some d =>
    match ticker with
    | none => none
    | some t =>
      if invalidRawTicker t then none
      else
        match calcCarBody prov benchmark (normalizeTicker t) d wdays with
        | Except.error _ => none
        | Except.ok v => v

structure TradeRecord where
  ticker : Option String
  transaction_date : Option Date
deriving DecidableEq

/-- EventStudy.analyze_batch: the source returns the frame unchanged when it is
empty and otherwise applies calculate_car row-wise (window 30, column car_30d);
in this list model the empty frame is the empty list in both branches. -/
def analyze_batch (prov : Provider) (benchmark : String)
    (df : List TradeRecord) : List (TradeRecord × Option ℚ) :=
  if df.isEmpty then []
  else df.map (fun r => (r, calculate_car prov benchmark r.ticker r.transaction_date 30))

/-- Spec-side aggregation (section 4.5 of the spec): restrict to the closed
event window [d, d + horizon]; empty restriction gives null; otherwise sum,
date by date, of abnormal = actual - (alpha + beta * benchmark_return). -/
def carSpec (alpha beta : ℚ) (returns : List RRow) (d horizon : Date) : Option ℚ :=
  let evt := returns.filter (fun r => decide (d ≤ r.date ∧ r.date ≤ d + horizon))
  if evt = [] then none
  else some (evt.foldl (fun acc r => acc + ((r.ra).getD 0 - (alpha + beta * (r.rb).getD 0))) 0)

/-- Spec-side closed-form two-parameter OLS (normal equations):
beta = (n Sxy - Sx Sy) / (n Sxx - Sx Sx), alpha = (Sy - beta Sx) / n. -/
def olsSpec (pts : List (ℚ × ℚ)) : ℚ × ℚ :=
  let n : ℚ := pts.length
  let sx := (pts.map Prod.fst).sum
  let sy := (pts.map Prod.snd).sum
  let sxx := (pts.map (fun p => p.1 * p.1)).sum
  let sxy := (pts.map (fun p => p.1 * p.2)).sum
  let beta := (n * sxy - sx * sy) / (n * sxx - sx * sx)
  ((sy - beta * sx) / n, beta)

/-- Determinant of the OLS normal equations; the fit is non-degenerate exactly
when this is nonzero (the regressor is not constant). -/
def olsDenom (pts : List (ℚ × ℚ)) : ℚ :=
  (pts.length : ℚ) * (pts.map (fun p => p.1 * p.1)).sum
    - ((pts.map Prod.fst).sum) * ((pts.map Prod.fst).sum)

/-- Spec-side return computation (section 4.3 of the spec), for a frame that
carries both columns: a date survives exactly when the asset and the benchmark
price are defined there and on the previous date of the joint index, and the
return is price[i]/price[i-1] - 1 in each series. -/
def returnsSpec (fr : FetchResult) : List RRow :=
  (fr.rows.zip fr.rows.tail).filterMap (fun pc =>
    match pc.1.asset, pc.2.asset, pc.1.bench, pc.2.bench with
    | some pa, some ca, some pb, some cb =>
        some ⟨pc.2.date, some (ca / pa - 1), some (cb / pb - 1)⟩
    | _, _, _, _ => none)

/-
Concrete fixtures for witnesses and counterexamples. Trade date 0 throughout;
rows cover dates -60 .. 5, so the joint return series has 65 rows, of which 50
fall in the estimation window [-200, -10] and 6 in the event window [0, 30].
-/

/-- 66 days of constant price 1 for both columns: every daily return is 0. -/
def frGood : FetchResult :=
  ⟨true, true, (List.range 66).map (fun i => ⟨-60 + (i : Int), some 1, some 1⟩)⟩

/-- 66 days of geometric growth at 1 percent per day: every return is 1/100. -/
def frC9 : FetchResult :=
  ⟨true, true, (List.range 66).map
    (fun i => ⟨-60 + (i : Int), some ((101 / 100 : ℚ) ^ i), some ((101 / 100 : ℚ) ^ i)⟩)⟩

/-- 66 days of prices alternating 1 and 2, so the returns alternate and the
benchmark regressor is not constant (the OLS fit is non-degenerate). -/
def frVar : FetchResult :=
  ⟨true, true, (List.range 66).map
    (fun i => ⟨-60 + (i : Int), some (if i % 2 == 0 then 1 else 2),
      some (if i % 2 == 0 then 1 else 2)⟩)⟩

/-- 66 days of constant price 1, all strictly after the trade date 0, so the
estimation-window restriction is empty. -/
def frLate : FetchResult :=
  ⟨true, true, (List.range 66).map (fun i => ⟨1 + (i : Int), some 1, some 1⟩)⟩

/-- 10 days of constant price 1: only 9 joint returns, below the 50-row floor. -/
def frFew : FetchResult :=
  ⟨true, true, (List.range 10).map (fun i => ⟨-60 + (i : Int), some 1, some 1⟩)⟩

def provAlwaysGood : Provider := fun _ _ _ _ => Except.ok frGood

def provC9 : Provider := fun _ _ _ _ => Except.ok frC9

def provVar : Provider := fun _ _ _ _ => Except.ok frVar

def provLate : Provider := fun _ _ _ _ => Except.ok frLate

def provFew : Provider := fun _ _ _ _ => Except.ok frFew

/-- A provider that raises on every request. -/
def provErr : Provider := fun _ _ _ _ => Except.error "network error"

/-- A provider that resolves exactly one symbol and returns an empty frame for
every other request; it witnesses which symbol string the engine fetched. -/
def provBySymbol (target : String) : Provider :=
  fun sym _ _ _ => if sym == target then Except.ok frGood else Except.ok ⟨true, true, []⟩

set_option maxRecDepth 100000

attribute [local semireducible] Rat.add Rat.mul Rat.inv Rat.sub

/-
General lemmas shared by the claim theorems.
-/

theorem calculate_car_valid (prov : Provider) (b t : String) (d w : Date)
    (ht : invalidRawTicker t = false) :
    calculate_car prov b (some t) (some d) w =
      ((calcCarBody prov b (normalizeTicker t) d w).toOption).join := by
  simp only [calculate_car]
  rw [ht]
  simp only [Bool.false_eq_true, if_false]
  cases calcCarBody prov b (normalizeTicker t) d w <;> rfl

theorem calcCarBody_reach (prov : Provider) (b s : String) (d w : Date) (data : FetchResult)
    (hprov : prov s b (d - 200) (d + w + 5) = Except.ok data)
    (h50 : ¬ (jointReturns data).length < 50)
    (hest : sliceRows (d - 200) (d - 10) (jointReturns data) ≠ [])
    (hb : data.hasBench = true) (ha : data.hasAsset = true) :
    calcCarBody prov b s d w =
      (if (sliceRows d (d + w) (jointReturns data)).isEmpty then Except.ok none
       else Except.ok (some (carSum
         (olsFit (estPointsOf (sliceRows (d - 200) (d - 10) (jointReturns data)))).1
         (olsFit (estPointsOf (sliceRows (d - 200) (d - 10) (jointReturns data)))).2
         (sliceRows d (d + w) (jointReturns data))))) := by
  unfold calcCarBody
  rw [hprov]
  have hie : (sliceRows (d - 200) (d - 10) (jointReturns data)).isEmpty = false := by
    simp [List.isEmpty_iff, hest]
  simp only [if_neg h50, hie, hb, ha, Bool.not_true, Bool.or_false, Bool.false_or,
    Bool.or_self, Bool.false_eq_true, if_false]

theorem foldl_add_map (f : RRow → ℚ) (l : List RRow) (acc : ℚ) :
    l.foldl (fun a r => a + f r) acc = acc + (l.map f).sum := by
  induction l generalizing acc with
  | nil => simp
  | cons x xs ih => simp [List.foldl_cons, ih]; ring

theorem filter_decide_eq_slice (lo hi : Date) (rs : List RRow) :
    rs.filter (fun r => decide (lo ≤ r.date ∧ r.date ≤ hi)) = sliceRows lo hi rs := by
  unfold sliceRows
  apply List.filter_congr
  intro r _
  unfold inWindow
  by_cases h1 : lo ≤ r.date <;> by_cases h2 : r.date ≤ hi <;> simp [h1, h2]

theorem list_sum_centered_mul (pts : List (ℚ × ℚ)) (a c : ℚ) :
    (pts.map (fun p => (p.1 - a) * (p.2 - c))).sum =
      (pts.map (fun p => p.1 * p.2)).sum - a * (pts.map Prod.snd).sum
        - c * (pts.map Prod.fst).sum + (pts.length : ℚ) * (a * c) := by
  induction pts with
  | nil => simp
  | cons p l ih =>
      simp only [List.map_cons, List.sum_cons, List.length_cons, ih]
      push_cast
      ring

theorem list_sum_centered_sq (pts : List (ℚ × ℚ)) (a : ℚ) :
    (pts.map (fun p => (p.1 - a) * (p.1 - a))).sum =
      (pts.map (fun p => p.1 * p.1)).sum - 2 * a * (pts.map Prod.fst).sum
        + (pts.length : ℚ) * (a * a) := by
  induction pts with
  | nil => simp
  | cons p l ih =>
      simp only [List.map_cons, List.sum_cons, List.length_cons, ih]
      push_cast
      ring

theorem olsFit_eq_olsSpec (pts : List (ℚ × ℚ)) (hd : olsDenom pts ≠ 0) :
    olsFit pts = olsSpec pts := by
  have hne : pts ≠ [] := by
    intro h
    apply hd
    subst h
    simp [olsDenom]
  have hn : ((pts.length : ℚ)) ≠ 0 := Nat.cast_ne_zero.mpr (List.length_pos.mpr hne).ne'
  unfold olsDenom at hd
  simp only [olsFit, olsSpec]
  set n := (pts.length : ℚ) with hnd
  set S1 := (pts.map Prod.fst).sum with hS1
  set S2 := (pts.map Prod.snd).sum with hS2
  set Q2 := (pts.map (fun p => p.1 * p.1)).sum with hQ2
  set P2 := (pts.map (fun p => p.1 * p.2)).sum with hP2
  have hsxx : (pts.map (fun p => (p.1 - S1 / n) * (p.1 - S1 / n))).sum =
      (n * Q2 - S1 * S1) / n := by
    rw [list_sum_centered_sq, ← hS1, ← hQ2, ← hnd]
    field_simp
    ring
  have hsxy : (pts.map (fun p => (p.1 - S1 / n) * (p.2 - S2 / n))).sum =
      (n * P2 - S1 * S2) / n := by
    rw [list_sum_centered_mul, ← hS1, ← hS2, ← hP2, ← hnd]
    field_simp
    ring
  rw [hsxx, hsxy]
  rw [if_neg (div_ne_zero hd hn)]
  have hbeta : ((n * P2 - S1 * S2) / n) / ((n * Q2 - S1 * S1) / n) =
      (n * P2 - S1 * S2) / (n * Q2 - S1 * S1) := by
    rw [div_div_div_cancel_right₀]
    exact hn
  rw [hbeta]
  refine Prod.ext ?_ rfl
  simp only
  ring

/-
Claim theorems.
-/

/-- Claim C1: for a trade that reaches the aggregation step (provider delivered
a frame, at least 50 joint return rows, non-empty estimation slice, both
columns present), calculate_car returns exactly the spec-side aggregation:
null when the closed event window [trade_date, trade_date + horizon] selects
no joint return row, and otherwise the plain unweighted sum over that window
of actual_return - (alpha + beta * benchmark_return); the 5-day fetch buffer
appears only in the provider request, never in the aggregation window. -/
theorem spec_C1 (prov : Provider) (b t : String) (d w : Date) (data : FetchResult)
    (ht : invalidRawTicker t = false)
    (hprov : prov (normalizeTicker t) b (d - 200) (d + w + 5) = Except.ok data)
    (h50 : ¬ (jointReturns data).length < 50)
    (hest : sliceRows (d - 200) (d - 10) (jointReturns data) ≠ [])
    (hb : data.hasBench = true) (ha : data.hasAsset = true) :
    calculate_car prov b (some t) (some d) w =
      carSpec (olsFit (estPointsOf (sliceRows (d - 200) (d - 10) (jointReturns data)))).1
              (olsFit (estPointsOf (sliceRows (d - 200) (d - 10) (jointReturns data)))).2
              (jointReturns data) d w := by
  rw [calculate_car_valid prov b t d w ht,
    calcCarBody_reach prov b (normalizeTicker t) d w data hprov h50 hest hb ha]
  unfold carSpec
  rw [filter_decide_eq_slice]
  by_cases hevt : sliceRows d (d + w) (jointReturns data) = []
  · have hie : (sliceRows d (d + w) (jointReturns data)).isEmpty = true := by
      simp [List.isEmpty_iff, hevt]
    simp only [hie, if_true, if_pos hevt]
    rfl
  · have hie : (sliceRows d (d + w) (jointReturns data)).isEmpty = false := by
      simp [List.isEmpty_iff, hevt]
    simp only [hie, Bool.false_eq_true, if_false, if_neg hevt, Except.toOption, Option.join]
    rw [foldl_add_map]
    simp [carSum]

/-- Claim C2: the market model is fit only on the joint return series
restricted to the closed estimation window [trade_date - 200, trade_date - 10];
an empty restriction, or a frame without the asset or the benchmark column,
yields null; and on a non-degenerate fit the implemented regression equals the
closed-form two-parameter OLS solution (exactly, in rational arithmetic) with
the intercept always fit and no regularization. -/
theorem spec_C2 :
    (∀ (prov : Provider) (b t : String) (d w : Date) (data : FetchResult),
      invalidRawTicker t = false →
      prov (normalizeTicker t) b (d - 200) (d + w + 5) = Except.ok data →
      ¬ (jointReturns data).length < 50 →
      (sliceRows (d - 200) (d - 10) (jointReturns data) = [] ∨
        data.hasBench = false ∨ data.hasAsset = false) →
      calculate_car prov b (some t) (some d) w = none)
    ∧ (∀ pts : List (ℚ × ℚ), olsDenom pts ≠ 0 → olsFit pts = olsSpec pts) := by
  constructor
  · intro prov b t d w data ht hprov h50 hguard
    rw [calculate_car_valid prov b t d w ht]
    unfold calcCarBody
    rw [hprov]
    have hcond : ((sliceRows (d - 200) (d - 10) (jointReturns data)).isEmpty
        || !data.hasBench || !data.hasAsset) = true := by
      rcases hguard with h | h | h <;> simp [List.isEmpty_iff, h]
    simp only [if_neg h50, hcond, if_true]
    rfl
  · exact olsFit_eq_olsSpec

/-- Claim C3: on a frame carrying both columns, the derived joint return
series keeps exactly the dates whose own and previous prices are defined in
both series, with return[i] = price[i]/price[i-1] - 1 per series; the first
date has no previous row and is dropped, nothing is forward- or
backward-filled, and only dates with a defined return in both series survive
into the later steps. -/
theorem spec_C3 (fr : FetchResult) (ha : fr.hasAsset = true) (hb : fr.hasBench = true) :
    jointReturns fr = returnsSpec fr := by
  unfold jointReturns returnsSpec
  rw [ha, hb]
  congr 1
  funext pc
  rcases pc with ⟨⟨pd, pa, pb⟩, ⟨cd, ca, cb⟩⟩
  cases pa <;> cases ca <;> cases pb <;> cases cb <;> simp [mkReturnRow, pctCell]

/-- Claim C4: an exception raised inside the per-trade evaluation body is
caught at the engine boundary and converted to null, never propagated:
calculate_car is a total function whose result is always null or a value, and
a failing provider cannot abort batch processing (analyze_batch still returns
one row per input trade). -/
theorem spec_C4 :
    (∀ (prov : Provider) (b t : String) (d w : Date) (e : String),
      invalidRawTicker t = false →
      calcCarBody prov b (normalizeTicker t) d w = Except.error e →
      calculate_car prov b (some t) (some d) w = none)
    ∧ (∀ (prov : Provider) (b : String) (tk : Option String) (dt : Option Date) (w : Date),
      calculate_car prov b tk dt w = none ∨ ∃ q : ℚ, calculate_car prov b tk dt w = some q)
    ∧ (∀ (prov : Provider) (b : String) (df : List TradeRecord),
      (analyze_batch prov b df).length = df.length) := by
  refine ⟨?_, ?_, ?_⟩
  · intro prov b t d w e ht herr
    rw [calculate_car_valid prov b t d w ht, herr]
    rfl
  · intro prov b tk dt w
    cases h : calculate_car prov b tk dt w with
    | none => exact Or.inl rfl
    | some q => exact Or.inr ⟨q, rfl⟩
  · intro prov b df
    unfold analyze_batch
    cases df <;> simp

/-- Claim C5: analyze_batch returns, for every input list of trades (empty,
all-invalid, all-valid or mixed), exactly the input list in order, each record
augmented with the single additional car_30d field computed by calculate_car
at horizon 30; in particular the output length equals the input length and no
row short-circuits the others. -/
theorem spec_C5 (prov : Provider) (b : String) (df : List TradeRecord) :
    analyze_batch prov b df =
      df.map (fun r => (r, calculate_car prov b r.ticker r.transaction_date 30)) := by
  unfold analyze_batch
  cases df <;> simp

/-- Claim C6: whenever the provider delivers a frame whose joint return series
has fewer than 50 rows, calculate_car returns null, whatever else the frame
contains; the floor is applied before any estimation-window slicing or model
fit. -/
theorem spec_C6 (prov : Provider) (b t : String) (d w : Date) (data : FetchResult)
    (ht : invalidRawTicker t = false)
    (hprov : prov (normalizeTicker t) b (d - 200) (d + w + 5) = Except.ok data)
    (h50 : (jointReturns data).length < 50) :
    calculate_car prov b (some t) (some d) w = none := by
  rw [calculate_car_valid prov b t d w ht]
  unfold calcCarBody
  rw [hprov]
  simp only [if_pos h50]
  rfl

/-- Claim C7: a trade with an undefined transaction_date, or whose ticker is
not a string or equals one of the raw placeholder tokens "--", "NaN", "",
yields null for every provider — the provider argument is universally
quantified, so no data fetch can influence the outcome. -/
theorem spec_C7 (prov : Provider) (b : String) (w : Date) :
    (∀ t : Option String, calculate_car prov b t none w = none)
    ∧ (∀ d : Date, calculate_car prov b none (some d) w = none)
    ∧ (∀ d : Date,
      calculate_car prov b (some "--") (some d) w = none
      ∧ calculate_car prov b (some "NaN") (some d) w = none
      ∧ calculate_car prov b (some "") (some d) w = none) :=
  ⟨fun _ => rfl, fun _ => rfl, fun _ => ⟨rfl, rfl, rfl⟩⟩

/-- Claim C8 counterexample: "$ETH" has a currency-prefix marker and is not in
TICKER_MAP, so the claim says its result must be null; but the validation
never rejects such symbols, and with a provider that resolves the symbol the
result is a computed CAR, not null. -/
theorem spec_C8_cex :
    calculate_car provAlwaysGood "^GSPC" (some "$ETH") (some 0) 30 = some 0 := by decide

/-- Claim C8 as amended: validation rejects only non-string tickers and the
raw placeholder tokens; a currency-prefixed or digit-leading symbol is not
rejected at validation but passed to the fetch-and-compute body unchanged
(remapped by TICKER_MAP when the table has it, as for "$BTC"), and the result
is whatever that body produces — null exactly on provider failure or on the
downstream data guards. -/
theorem spec_C8_amended (prov : Provider) (b : String) (d w : Date) :
    calculate_car prov b (some "$ETH") (some d) w
        = ((calcCarBody prov b "$ETH" d w).toOption).join
    ∧ calculate_car prov b (some "9BOND") (some d) w
        = ((calcCarBody prov b "9BOND" d w).toOption).join
    ∧ calculate_car prov b (some "$BTC") (some d) w
        = ((calcCarBody prov b "BTC-USD" d w).toOption).join := by
  refine ⟨?_, ?_, ?_⟩
  · rw [calculate_car_valid prov b "$ETH" d w (by decide)]
    rw [show normalizeTicker "$ETH" = "$ETH" from by decide]
  · rw [calculate_car_valid prov b "9BOND" d w (by decide)]
    rw [show normalizeTicker "9BOND" = "9BOND" from by decide]
  · rw [calculate_car_valid prov b "$BTC" d w (by decide)]
    rw [show normalizeTicker "$BTC" = "BTC-USD" from by decide]

/-- Claim C9 counterexample: on the synthetic input with constant daily return
1/100 for asset and benchmark on every shared date of both windows, the fitted
market model is (alpha, beta) = (1/100, 0) — the benchmark regressor is
constant, the centered least-squares problem is degenerate, and the
minimum-norm solution gives slope 0 — not alpha ≈ 0 and beta ≈ 1 as claimed. -/
theorem spec_C9_cex :
    olsFit (estPointsOf (sliceRows (-200) (-10) (jointReturns frC9))) = (1 / 100, 0)
    ∧ (olsFit (estPointsOf (sliceRows (-200) (-10) (jointReturns frC9)))).2 ≠ 1
    ∧ (olsFit (estPointsOf (sliceRows (-200) (-10) (jointReturns frC9)))).1 ≠ 0 :=
  ⟨by decide, by decide, by decide⟩

/-- Claim C9 as amended: on the constant-1/100 synthetic input the fit is
degenerate and yields alpha = 1/100 and beta = 0 (not alpha ≈ 0, beta ≈ 1),
while the claimed CAR ≈ 0 over the event window does hold — expected return
equals actual return on every event date, so the CAR is exactly 0. -/
theorem spec_C9_amended :
    calculate_car provC9 "^GSPC" (some "AAPL") (some 0) 30 = some 0
    ∧ olsFit (estPointsOf (sliceRows (-200) (-10) (jointReturns frC9))) = (1 / 100, 0) :=
  ⟨by decide, by decide⟩

/-- Claim C10: the placeholder test is applied to the raw string only, with no
re-check after normalization: " -- " (which normalizes to "--"), an
all-whitespace string (which normalizes to "") and "nan" (which normalizes to
"NAN") pass validation and a fetch is attempted with the normalized string —
each provider below resolves exactly that normalized symbol, and the result is
a computed CAR rather than the null of the validation step; the raw token
"--" itself, by contrast, is rejected before any fetch. -/
theorem spec_C10 :
    calculate_car (provBySymbol "--") "^GSPC" (some " -- ") (some 0) 30 = some 0
    ∧ calculate_car (provBySymbol "") "^GSPC" (some "   ") (some 0) 30 = some 0
    ∧ calculate_car (provBySymbol "NAN") "^GSPC" (some "nan") (some 0) 30 = some 0
    ∧ calculate_car (provBySymbol "--") "^GSPC" (some "--") (some 0) 30 = none :=
  ⟨by decide, by decide, by decide, by decide⟩

/-
Witnesses: concrete instantiations of the claim theorems that carry
hypotheses.
-/

theorem spec_C1_witness :
    invalidRawTicker "AAPL" = false
    ∧ provAlwaysGood (normalizeTicker "AAPL") "^GSPC" (0 - 200) (0 + 30 + 5) = Except.ok frGood
    ∧ ¬ (jointReturns frGood).length < 50
    ∧ sliceRows (0 - 200) (0 - 10) (jointReturns frGood) ≠ []
    ∧ frGood.hasBench = true
    ∧ frGood.hasAsset = true
    ∧ calculate_car provAlwaysGood "^GSPC" (some "AAPL") (some 0) 30 =
        carSpec (olsFit (estPointsOf (sliceRows (0 - 200) (0 - 10) (jointReturns frGood)))).1
                (olsFit (estPointsOf (sliceRows (0 - 200) (0 - 10) (jointReturns frGood)))).2
                (jointReturns frGood) 0 30 :=
  ⟨by decide, rfl, by decide, by decide, rfl, rfl,
    spec_C1 provAlwaysGood "^GSPC" "AAPL" 0 30 frGood (by decide) rfl (by decide)
      (by decide) rfl rfl⟩

theorem spec_C2_witness :
    (invalidRawTicker "AAPL" = false
      ∧ provLate (normalizeTicker "AAPL") "^GSPC" (0 - 200) (0 + 30 + 5) = Except.ok frLate
      ∧ ¬ (jointReturns frLate).length < 50
      ∧ sliceRows (0 - 200) (0 - 10) (jointReturns frLate) = []
      ∧ calculate_car provLate "^GSPC" (some "AAPL") (some 0) 30 = none)
    ∧ (olsDenom (estPointsOf (sliceRows (-200) (-10) (jointReturns frVar))) ≠ 0
      ∧ olsFit (estPointsOf (sliceRows (-200) (-10) (jointReturns frVar))) =
          olsSpec (estPointsOf (sliceRows (-200) (-10) (jointReturns frVar)))) :=
  ⟨⟨by decide, rfl, by decide, by decide,
      spec_C2.1 provLate "^GSPC" "AAPL" 0 30 frLate (by decide) rfl (by decide)
        (Or.inl (by decide))⟩,
    ⟨by decide, spec_C2.2 _ (by decide)⟩⟩

theorem spec_C3_witness :
    frGood.hasAsset = true ∧ frGood.hasBench = true
    ∧ jointReturns frGood = returnsSpec frGood :=
  ⟨rfl, rfl, spec_C3 frGood rfl rfl⟩

theorem spec_C4_witness :
    invalidRawTicker "AAPL" = false
    ∧ calcCarBody provErr "^GSPC" (normalizeTicker "AAPL") 0 30 = Except.error "network error"
    ∧ calculate_car provErr "^GSPC" (some "AAPL") (some 0) 30 = none :=
  ⟨by decide, rfl,
    spec_C4.1 provErr "^GSPC" "AAPL" 0 30 "network error" (by decide) rfl⟩

theorem spec_C6_witness :
    invalidRawTicker "AAPL" = false
    ∧ provFew (normalizeTicker "AAPL") "^GSPC" (0 - 200) (0 + 30 + 5) = Except.ok frFew
    ∧ (jointReturns frFew).length < 50
    ∧ calculate_car provFew "^GSPC" (some "AAPL") (some 0) 30 = none :=
  ⟨by decide, rfl, by decide,
    spec_C6 provFew "^GSPC" "AAPL" 0 30 frFew (by decide) rfl (by decide)⟩
